import Mathlib

set_option linter.unusedVariables false

/-!
Verification of the WhatsApp archive query engine (`whatsapp.py`).

The archive is modelled as a value (`Db`): a list of `messages` rows and a
list of `chats` rows, mirroring the SQLite schema documented in the source.
Timestamps are modelled as `Nat` (ISO-8601 strings compare identically to
their chronological order).  Each SQL query is translated into pure list
operations: `WHERE` becomes `List.filter`, `JOIN` becomes an explicit join,
`ORDER BY` becomes `List.insertionSort` (a stable total-preorder sort, a
legitimate model of SQLite ordering with arbitrary tie order), and
`LIMIT ? OFFSET ?` becomes `drop`/`take`.  SQL `LIKE` is modelled by a
wildcard matcher with SQLite's default ASCII case folding.  Python
exceptions are modelled with `Except`.
-/

/-- ASCII lower-casing, as SQLite's `LOWER` and `LIKE` fold only ASCII. -/
def lowerChar (c : Char) : Char :=
  if 'A' ≤ c ∧ c ≤ 'Z' then Char.ofNat (c.toNat + 32) else c

/-- ASCII lower-casing of a character list. -/
def lowerList (s : List Char) : List Char := s.map lowerChar

/-- SQLite `LIKE` matching on already case-folded character lists:
`'%'` matches any sequence, `'_'` matches any single character. -/
def likeMatch : List Char → List Char → Bool
  | [], s => s.isEmpty
  | c :: ps, s =>
    if c = '%' then s.tails.any fun t => likeMatch ps t
    else
      match s with
      | [] => false
      | d :: s' => (decide (c = '_') || c == d) && likeMatch ps s'

/-- SQLite `LIKE` on strings (case-insensitive for ASCII, as by default). -/
def sqlLike (s pat : String) : Bool :=
  likeMatch (lowerList pat.toList) (lowerList s.toList)

/-- SQLite's default BINARY collation on text values: lexicographic
comparison of the code points (equivalently, of the UTF-8 bytes). -/
def charListLe : List Char → List Char → Bool
  | [], _ => true
  | _ :: _, [] => false
  | c :: a', d :: b' => if c < d then true else if d < c then false else charListLe a' b'

/-- Totality of `charListLe`. -/
def charListLe_total : ∀ a b : List Char, charListLe a b = true ∨ charListLe b a = true := by
  intro a
  induction a with
  | nil => intro b; exact Or.inl rfl
  | cons c a' ih =>
    intro b
    cases b with
    | nil => exact Or.inr rfl
    | cons d b' =>
      unfold charListLe
      by_cases h1 : c < d
      · left; rw [if_pos h1]
      · by_cases h2 : d < c
        · right; rw [if_pos h2]
        · rcases ih b' with h | h
          · left; rw [if_neg h1, if_neg h2]; exact h
          · right; rw [if_neg h2, if_neg h1]; exact h

/-- Transitivity of `charListLe`. -/
def charListLe_trans : ∀ a b c : List Char,
    charListLe a b = true → charListLe b c = true → charListLe a c = true := by
  intro a
  induction a with
  | nil => intro b c _ _; rfl
  | cons ca a' ih =>
    intro b c h₁ h₂
    cases b with
    | nil => cases h₁
    | cons cb b' =>
      cases c with
      | nil => cases h₂
      | cons cc c' =>
        unfold charListLe at h₁ h₂ ⊢
        by_cases hab : ca < cb
        · rw [if_pos hab] at h₁
          by_cases hbc : cb < cc
          · rw [if_pos (lt_trans hab hbc)]
          · rcases lt_or_eq_of_le (not_lt.mp hbc) with hcb | hcb
            · rw [if_neg hbc, if_pos hcb] at h₂; cases h₂
            · rw [if_pos (hcb ▸ hab)]
        · by_cases hba : cb < ca
          · rw [if_neg hab, if_pos hba] at h₁; cases h₁
          · have heq : ca = cb := le_antisymm (not_lt.mp hba) (not_lt.mp hab)
            rw [if_neg hab, if_neg hba] at h₁
            by_cases hbc : cb < cc
            · rw [if_pos (heq ▸ hbc)]
            · by_cases hcb : cc < cb
              · rw [if_neg hbc, if_pos hcb] at h₂; cases h₂
              · have heq2 : cb = cc := le_antisymm (not_lt.mp hcb) (not_lt.mp hbc)
                rw [if_neg hbc, if_neg hcb] at h₂
                have hac : ¬ ca < cc := heq2 ▸ heq ▸ lt_irrefl ca
                have hca : ¬ cc < ca := heq2 ▸ heq ▸ lt_irrefl ca
                rw [if_neg hac, if_neg hca]
                exact ih b' c' h₁ h₂

/-- Antisymmetry of `charListLe`. -/
def charListLe_antisymm : ∀ a b : List Char,
    charListLe a b = true → charListLe b a = true → a = b := by
  intro a
  induction a with
  | nil =>
    intro b _ h₂
    cases b with
    | nil => rfl
    | cons d b' => cases h₂
  | cons c a' ih =>
    intro b h₁ h₂
    cases b with
    | nil => cases h₁
    | cons d b' =>
      unfold charListLe at h₁ h₂
      by_cases hcd : c < d
      · rw [if_neg (lt_asymm hcd), if_pos hcd] at h₂; cases h₂
      · by_cases hdc : d < c
        · rw [if_neg hcd, if_pos hdc] at h₁; cases h₁
        · have heq : c = d := le_antisymm (not_lt.mp hdc) (not_lt.mp hcd)
          rw [if_neg hcd, if_neg hdc] at h₁
          rw [if_neg hdc, if_neg hcd] at h₂
          rw [heq, ih b' h₁ h₂]

/-- A row of the `messages` table. -/
structure DbMessage where
  id : String
  chat_jid : String
  sender : String
  content : String
  timestamp : Nat
  is_from_me : Bool
  deriving DecidableEq, Repr

/-- A row of the `chats` table (`name` and `last_message_time` nullable). -/
structure DbChat where
  jid : String
  name : Option String
  last_message_time : Option Nat
  deriving DecidableEq, Repr

/-- The archive: the two tables of the SQLite store. -/
structure Db where
  messages : List DbMessage
  chats : List DbChat
  deriving DecidableEq, Repr

/-- The `Message` dataclass of the source. -/
structure Message where
  timestamp : Nat
  sender : String
  content : String
  is_from_me : Bool
  chat_jid : String
  id : String
  chat_name : Option String
  deriving DecidableEq, Repr

/-- The `Chat` dataclass of the source. -/
structure Chat where
  jid : String
  name : Option String
  last_message_time : Option Nat
  last_message : Option String
  last_sender : Option String
  last_is_from_me : Option Bool
  deriving DecidableEq, Repr

/-- The source's `Chat.is_group`: group iff the JID ends with `@g.us`. -/
def Chat.is_group (c : Chat) : Bool :=
  "@g.us".toList.isSuffixOf c.jid.toList

/-- The `Contact` dataclass of the source. -/
structure Contact where
  phone_number : String
  name : Option String
  jid : String
  deriving DecidableEq, Repr

/-- The `MessageContext` dataclass of the source. -/
structure MessageContext where
  message : Message
  before : List Message
  after : List Message
  deriving DecidableEq, Repr

/-- One row of `messages JOIN chats ON messages.chat_jid = chats.jid`,
in the column order selected by the source queries (the `jid` column
selected from `chats` populates the `chat_jid` field). -/
def joinRow (m : DbMessage) (c : DbChat) : Message :=
  { timestamp := m.timestamp
    sender := m.sender
    content := m.content
    is_from_me := m.is_from_me
    chat_jid := c.jid
    id := m.id
    chat_name := c.name }

/-- All rows of `messages JOIN chats ON messages.chat_jid = chats.jid`. -/
def joined_messages (db : Db) : List Message :=
  db.messages.flatMap fun m =>
    (db.chats.filter fun c => c.jid == m.chat_jid).map (joinRow m)

/-- Relation for `ORDER BY messages.timestamp DESC`. -/
def msgTimeDesc (a b : Message) : Prop := b.timestamp ≤ a.timestamp

/-- Relation for `ORDER BY messages.timestamp ASC`. -/
def msgTimeAsc (a b : Message) : Prop := a.timestamp ≤ b.timestamp

instance : DecidableRel msgTimeDesc := fun a b =>
  inferInstanceAs (Decidable (b.timestamp ≤ a.timestamp))

instance : DecidableRel msgTimeAsc := fun a b =>
  inferInstanceAs (Decidable (a.timestamp ≤ b.timestamp))

instance : IsTotal Message msgTimeDesc := ⟨fun a b => Nat.le_total b.timestamp a.timestamp⟩

instance : IsTrans Message msgTimeDesc := ⟨fun _ _ _ h₁ h₂ => Nat.le_trans h₂ h₁⟩

instance : IsTotal Message msgTimeAsc := ⟨fun a b => Nat.le_total a.timestamp b.timestamp⟩

instance : IsTrans Message msgTimeAsc := ⟨fun _ _ _ h₁ h₂ => Nat.le_trans h₁ h₂⟩

/-- The `WHERE` clause built by `list_messages`: every filter is optional,
and Python truthiness makes an empty string behave like an absent filter.
A `BETWEEN` is inclusive on both bounds; the free-text query is wrapped in
`%`-wildcards and compared with `LOWER(...) LIKE LOWER(...)`. -/
def message_matches (date_range : Option (Nat × Nat))
    (sender_phone_number chat_jid query : Option String) (r : Message) : Bool :=
  (match date_range with
   | none => true
   | some (lo, hi) => decide (lo ≤ r.timestamp) && decide (r.timestamp ≤ hi)) &&
  (match sender_phone_number with
   | none => true
   | some s => s == "" || r.sender == s) &&
  (match chat_jid with
   | none => true
   | some cj => cj == "" || r.chat_jid == cj) &&
  (match query with
   | none => true
   | some q => q == "" || sqlLike r.content ("%" ++ q ++ "%"))

/-- The matching joined rows of `list_messages`, already in
`ORDER BY messages.timestamp DESC` order (before `LIMIT`/`OFFSET`). -/
def matching_sorted (db : Db) (date_range : Option (Nat × Nat))
    (sender_phone_number chat_jid query : Option String) : List Message :=
  List.insertionSort msgTimeDesc
    ((joined_messages db).filter (message_matches date_range sender_phone_number chat_jid query))

/-- The `before` window of `get_message_context`: same conversation,
strictly earlier timestamp, `ORDER BY timestamp DESC LIMIT n`.  The rows
are returned in exactly the order the cursor yields them (the source
appends them without reversing). -/
def before_window (db : Db) (n : Nat) (t : Message) : List Message :=
  (List.insertionSort msgTimeDesc
    ((joined_messages db).filter fun r =>
      r.chat_jid == t.chat_jid && decide (r.timestamp < t.timestamp))).take n

/-- The `after` window of `get_message_context`: same conversation,
strictly later timestamp, `ORDER BY timestamp ASC LIMIT n`. -/
def after_window (db : Db) (n : Nat) (t : Message) : List Message :=
  (List.insertionSort msgTimeAsc
    ((joined_messages db).filter fun r =>
      t.chat_jid == r.chat_jid && decide (t.timestamp < r.timestamp))).take n

/-- Operation `get_message_context`: resolve the target by message id alone
(`fetchone` takes the first joined row), then fetch the two windows.
A missing target raises `ValueError` in the source, modelled as `.error`. -/
def get_message_context (db : Db) (message_id : String) (before after : Nat) :
    Except String MessageContext :=
  match (joined_messages db).filter (fun r => r.id == message_id) with
  | [] => .error ("Message with ID " ++ message_id ++ " not found")
  | t :: _ => .ok ⟨t, before_window db before t, after_window db after t⟩

/-- The context-expansion loop of `list_messages`: for each target in
order, append `context.before`, then `context.message`, then
`context.after`; a raised lookup error propagates. -/
def expand_all (db : Db) (context_before context_after : Nat) :
    List Message → Except String (List Message)
  | [] => .ok []
  | t :: ts =>
    match get_message_context db t.id context_before context_after with
    | .error e => .error e
    | .ok ctx =>
      match expand_all db context_before context_after ts with
      | .error e => .error e
      | .ok rest => .ok (ctx.before ++ ctx.message :: (ctx.after ++ rest))

/-- Operation `list_messages`: filter, sort descending by timestamp, apply
`LIMIT limit OFFSET page * limit`, then optionally expand each selected
target into its context window. -/
def list_messages (db : Db) (date_range : Option (Nat × Nat))
    (sender_phone_number chat_jid query : Option String) (limit page : Nat)
    (include_context : Bool) (context_before context_after : Nat) :
    Except String (List Message) :=
  let result :=
    ((matching_sorted db date_range sender_phone_number chat_jid query).drop
      (page * limit)).take limit
  if include_context && !result.isEmpty then
    expand_all db context_before context_after result
  else
    .ok result

/-- Ordering for `ORDER BY chats.name` under SQLite's default BINARY collation:
`NULL` sorts first ascending, then codepoint-wise string order. -/
def nameLe : Option String → Option String → Prop
  | none, _ => True
  | some _, none => False
  | some x, some y => charListLe x.toList y.toList = true

instance : DecidableRel nameLe := fun a b =>
  match a, b with
  | none, _ => isTrue trivial
  | some _, none => isFalse fun h => h
  | some x, some y => inferInstanceAs (Decidable (charListLe x.toList y.toList = true))

/-- The `ORDER BY chats.name` ordering lifted to result rows. -/
def chatNameLe (a b : Chat) : Prop := nameLe a.name b.name

instance : DecidableRel chatNameLe := fun a b =>
  inferInstanceAs (Decidable (nameLe a.name b.name))

instance chatNameLe_total : IsTotal Chat chatNameLe :=
  ⟨fun a b => by
    unfold chatNameLe
    cases a.name <;> cases b.name <;> simp only [nameLe] <;> try trivial
    exact charListLe_total _ _⟩

instance chatNameLe_trans : IsTrans Chat chatNameLe :=
  ⟨fun a b c h₁ h₂ => by
    unfold chatNameLe at *
    revert h₁ h₂
    cases a.name <;> cases b.name <;> cases c.name <;> simp only [nameLe] <;>
      intro h₁ h₂ <;> try trivial
    exact charListLe_trans _ _ _ h₁ h₂⟩

/-- Ordering for `ORDER BY chats.last_message_time DESC`: `NULL` is smallest, so it
sorts last in descending order. -/
def timeValLe : Option Nat → Option Nat → Prop
  | none, _ => True
  | some _, none => False
  | some x, some y => x ≤ y

instance : DecidableRel timeValLe := fun a b =>
  match a, b with
  | none, _ => isTrue trivial
  | some _, none => isFalse fun h => h
  | some x, some y => inferInstanceAs (Decidable (x ≤ y))

/-- The `ORDER BY chats.last_message_time DESC` ordering lifted to result rows. -/
def chatTimeDesc (a b : Chat) : Prop := timeValLe b.last_message_time a.last_message_time

instance : DecidableRel chatTimeDesc := fun a b =>
  inferInstanceAs (Decidable (timeValLe b.last_message_time a.last_message_time))

instance chatTimeDesc_total : IsTotal Chat chatTimeDesc :=
  ⟨fun a b => by
    unfold chatTimeDesc
    cases a.last_message_time <;> cases b.last_message_time <;>
      simp only [timeValLe] <;> try trivial
    exact le_total _ _⟩

instance chatTimeDesc_trans : IsTrans Chat chatTimeDesc :=
  ⟨fun a b c h₁ h₂ => by
    unfold chatTimeDesc at *
    revert h₁ h₂
    cases a.last_message_time <;> cases b.last_message_time <;>
      cases c.last_message_time <;> simp only [timeValLe] <;>
      intro h₁ h₂ <;> try trivial
    exact le_trans h₂ h₁⟩

/-- The rows of the `list_chats` select with its
`LEFT JOIN messages ON chats.jid = messages.chat_jid AND
chats.last_message_time = messages.timestamp`: a `NULL` join condition is
not true, and a chat with no matching message yields one null-extended
row; each matching message yields its own row. -/
def chat_left_join (db : Db) : List Chat :=
  db.chats.flatMap fun c =>
    match c.last_message_time with
    | none => [⟨c.jid, c.name, none, none, none, none⟩]
    | some t =>
      match db.messages.filter (fun m => m.chat_jid == c.jid && m.timestamp == t) with
      | [] => [⟨c.jid, c.name, some t, none, none, none⟩]
      | ms => ms.map fun m => ⟨c.jid, c.name, some t, some m.content, some m.sender, some m.is_from_me⟩

/-- The optional free-text filter of `list_chats`:
`LOWER(chats.name) LIKE LOWER(?) OR chats.jid LIKE ?` with `%`-wrapped
pattern; a `NULL` name makes the left disjunct not true. -/
def chat_matches (query : Option String) (r : Chat) : Bool :=
  match query with
  | none => true
  | some q =>
    q == "" ||
      ((match r.name with
        | some n => sqlLike n ("%" ++ q ++ "%")
        | none => false) ||
       sqlLike r.jid ("%" ++ q ++ "%"))

/-- Operation `list_chats`.  When `include_last_message` is false the generated SQL
still selects `messages.content` but omits the join, so SQLite reports an
error and the handler returns `[]`.  Any `sort_by` other than
`"last_active"` sorts by `chats.name`. -/
def list_chats (db : Db) (query : Option String) (limit page : Nat)
    (include_last_message : Bool) (sort_by : String) : List Chat :=
  if include_last_message then
    let rows := (chat_left_join db).filter (chat_matches query)
    let sorted :=
      if sort_by = "last_active" then List.insertionSort chatTimeDesc rows
      else List.insertionSort chatNameLe rows
    (sorted.drop (page * limit)).take limit
  else
    []

/-- The `ORDER BY name, jid` ordering of `search_contacts`, on the distinct
`(jid, name)` pairs it selects: primary key the name (`NULL` first,
BINARY collation), secondary key the jid. -/
def contactOrd (a b : String × Option String) : Prop :=
  (nameLe a.2 b.2 ∧ a.2 ≠ b.2) ∨ (a.2 = b.2 ∧ charListLe a.1.toList b.1.toList = true)

instance : DecidableRel contactOrd := fun a b =>
  inferInstanceAs (Decidable ((nameLe a.2 b.2 ∧ a.2 ≠ b.2) ∨
    (a.2 = b.2 ∧ charListLe a.1.toList b.1.toList = true)))

instance contactOrd_total : IsTotal (String × Option String) contactOrd :=
  ⟨fun a b => by
    unfold contactOrd
    by_cases hn : a.2 = b.2
    · exact (charListLe_total a.1.toList b.1.toList).imp
        (fun h => Or.inr ⟨hn, h⟩) (fun h => Or.inr ⟨hn.symm, h⟩)
    · have htot : nameLe a.2 b.2 ∨ nameLe b.2 a.2 := by
        cases a.2 <;> cases b.2 <;> simp only [nameLe] <;> try trivial
        exact charListLe_total _ _
      exact htot.imp (fun h => Or.inl ⟨h, hn⟩) (fun h => Or.inl ⟨h, fun hh => hn hh.symm⟩)⟩

instance contactOrd_trans : IsTrans (String × Option String) contactOrd :=
  ⟨fun a b c h₁ h₂ => by
    have hanti : ∀ x y : Option String, nameLe x y → nameLe y x → x = y := by
      intro x y
      cases x <;> cases y <;> simp only [nameLe] <;> intro h h' <;> try trivial
      exact congrArg some (String.toList_inj.mp (charListLe_antisymm _ _ h h'))
    have htr : ∀ x y z : Option String, nameLe x y → nameLe y z → nameLe x z := by
      intro x y z
      cases x <;> cases y <;> cases z <;> simp only [nameLe] <;> intro h h' <;> try trivial
      exact charListLe_trans _ _ _ h h'
    unfold contactOrd at *
    rcases h₁ with ⟨hab, hne₁⟩ | ⟨heq₁, hj₁⟩
    · rcases h₂ with ⟨hbc, hne₂⟩ | ⟨heq₂, hj₂⟩
      · refine Or.inl ⟨htr _ _ _ hab hbc, fun hac => ?_⟩
        exact hne₁ (hanti _ _ hab (hac ▸ hbc))
      · exact Or.inl ⟨heq₂ ▸ hab, heq₂ ▸ hne₁⟩
    · rcases h₂ with ⟨hbc, hne₂⟩ | ⟨heq₂, hj₂⟩
      · exact Or.inl ⟨heq₁ ▸ hbc, heq₁ ▸ hne₂⟩
      · exact Or.inr ⟨heq₁.trans heq₂, charListLe_trans _ _ _ hj₁ hj₂⟩⟩

/-- The `WHERE` clause of `search_contacts`: case-insensitive `LIKE` on
name or jid against the `%`-wrapped query, and
`jid NOT LIKE '%@g.us'` (itself case-insensitive). -/
def contact_matches (query : String) (c : DbChat) : Bool :=
  ((match c.name with
    | some n => sqlLike n ("%" ++ query ++ "%")
    | none => false) ||
   sqlLike c.jid ("%" ++ query ++ "%")) &&
  !(sqlLike c.jid "%@g.us")

/-- The `SELECT DISTINCT jid, name` rows of `search_contacts` that pass
its `WHERE` clause. -/
def contact_keys (db : Db) (query : String) : List (String × Option String) :=
  ((db.chats.filter (contact_matches query)).map fun c => (c.jid, c.name)).dedup

/-- Building a `Contact` from a selected row: the phone number is
`jid.split('@')[0]`, the segment before the first `@`. -/
def mk_contact (p : String × Option String) : Contact :=
  ⟨⟨p.1.toList.takeWhile fun ch => ch != '@'⟩, p.2, p.1⟩

/-- Operation `search_contacts`: filter, deduplicate, `ORDER BY name, jid`,
`LIMIT 50`, and build contacts. -/
def search_contacts (db : Db) (query : String) : List Contact :=
  ((List.insertionSort contactOrd (contact_keys db query)).take 50).map mk_contact

/-- The JSON object of a gateway reply, with its two optional fields. -/
structure JsonResp where
  success : Option Bool
  message : Option String
  deriving DecidableEq, Repr

/-- The outcome of the single HTTP POST issued by `send_message`:
either a transport-level failure (`requests.RequestException`) or a
response with a status code, a raw body text, and the parsed JSON body
(`none` when the body fails to parse). -/
inductive HttpResult where
  | response (status : Nat) (text : String) (json : Option JsonResp)
  | requestError (err : String)
  deriving DecidableEq, Repr

/-- Operation `send_message`: validate the recipient, interpret HTTP 200 through
the parsed JSON (`success`/`message` with defaults), any other status as
a failure embedding the raw body, and transport errors as a failure
embedding the error text. -/
def send_message (recipient message : String) (http : HttpResult) : Bool × String :=
  if recipient = "" then
    (false, "Recipient must be provided")
  else
    match http with
    | .requestError e => (false, "Request error: " ++ e)
    | .response status text json =>
      if status = 200 then
        match json with
        | none => (false, "Error parsing response: " ++ text)
        | some j => (j.success.getD false, j.message.getD "Unknown response")
      else
        (false, "Error: HTTP " ++ toString status ++ " - " ++ text)

/-- Store-level failures of the archive: the database cannot be opened,
or a query is rejected by the engine (both surface as `sqlite3.Error`). -/
inductive DbError where
  | storeUnavailable (msg : String)
  | queryFailed (msg : String)
  deriving DecidableEq, Repr

/-- Operation `list_messages` as invoked against a store that may fail: the
`except sqlite3.Error` handler returns `[]`. -/
def list_messages_op (store : Except DbError Db) (date_range : Option (Nat × Nat))
    (sender_phone_number chat_jid query : Option String) (limit page : Nat)
    (include_context : Bool) (context_before context_after : Nat) :
    Except String (List Message) :=
  match store with
  | .error _ => .ok []
  | .ok db =>
    list_messages db date_range sender_phone_number chat_jid query limit page
      include_context context_before context_after

/-- Operation `list_chats` against a store that may fail: the handler returns `[]`. -/
def list_chats_op (store : Except DbError Db) (query : Option String) (limit page : Nat)
    (include_last_message : Bool) (sort_by : String) : List Chat :=
  match store with
  | .error _ => []
  | .ok db => list_chats db query limit page include_last_message sort_by

/-- Operation `search_contacts` against a store that may fail: the handler returns `[]`. -/
def search_contacts_op (store : Except DbError Db) (query : String) : List Contact :=
  match store with
  | .error _ => []
  | .ok db => search_contacts db query

/-- Whether an `Except` result is a success (models "did not raise"). -/
def isOkE : Except ε α → Bool
  | .ok _ => true
  | .error _ => false

/-- A small archive: one conversation `c@s` with three messages at
timestamps 1 < 2 < 3. -/
def sampleDb : Db :=
  { messages :=
      [ ⟨"m1", "c@s", "s1", "one", 1, false⟩
      , ⟨"m2", "c@s", "s2", "two", 2, true⟩
      , ⟨"m3", "c@s", "s3", "three", 3, false⟩ ]
    chats := [ ⟨"c@s", some "C", some 3⟩ ] }

/-- The joined row of `sampleDb`'s first message. -/
def msg1v : Message := ⟨1, "s1", "one", false, "c@s", "m1", some "C"⟩

/-- The joined row of `sampleDb`'s second message. -/
def msg2v : Message := ⟨2, "s2", "two", true, "c@s", "m2", some "C"⟩

/-- The joined row of `sampleDb`'s third message. -/
def msg3v : Message := ⟨3, "s3", "three", false, "c@s", "m3", some "C"⟩

/-- An archive with three conversations named `Bob`, `alice` and `NULL`. -/
def namesDb : Db :=
  { messages := []
    chats := [ ⟨"3@s", some "Bob", none⟩, ⟨"1@s", some "alice", none⟩, ⟨"2@s", none, none⟩ ] }

/-- An archive with a single non-group conversation `12@s` named `zz`. -/
def contactsDb : Db :=
  { messages := []
    chats := [ ⟨"12@s", some "zz", none⟩ ] }

/-- An archive whose only conversation has the JID `7@G.US`: not a group
under `Chat.is_group` (case-sensitive), yet filtered out by the
case-insensitive `NOT LIKE '%@g.us'` of `search_contacts`. -/
def upperGroupDb : Db :=
  { messages := []
    chats := [ ⟨"7@G.US", some "x", none⟩ ] }

/-- The spec's reading of name ordering for `sort_by="name"`: ascending
and case-insensitive, with absent names placed first.  Stated from the
spec's words, to be compared with the source's `chatNameLe`. -/
def specCaseInsensitiveNameLe : Option String → Option String → Prop
  | none, _ => True
  | some _, none => False
  | some x, some y => charListLe (lowerList x.toList) (lowerList y.toList) = true

instance : DecidableRel specCaseInsensitiveNameLe := fun a b =>
  match a, b with
  | none, _ => isTrue trivial
  | some _, none => isFalse fun h => h
  | some x, some y =>
    inferInstanceAs (Decidable (charListLe (lowerList x.toList) (lowerList y.toList) = true))

/-- The spec's reading of `search_contacts` matching: the query is a
case-insensitive substring of the display name or the identifier.
Stated from the spec's words, to be compared with the source's
`LIKE`-based `contact_matches`. -/
def specSubstringCI (needle hay : String) : Bool :=
  (lowerList hay.toList).tails.any fun t => (lowerList needle.toList).isPrefixOf t

/-! ### Helper lemmas about the `LIKE` matcher -/

theorem likeMatch_pct {ps s t : List Char} (h : t <:+ s) (hm : likeMatch ps t = true) :
    likeMatch ('%' :: ps) s = true := by
  have hu : likeMatch ('%' :: ps) s = s.tails.any fun u => likeMatch ps u := rfl
  rw [hu, List.any_eq_true]
  exact ⟨t, (List.mem_tails t s).mpr h, hm⟩

theorem likeMatch_self : ∀ l : List Char, likeMatch l l = true := by
  intro l
  induction l with
  | nil => rfl
  | cons c ps ih =>
    by_cases hc : c = '%'
    · subst hc
      exact likeMatch_pct (List.suffix_cons '%' ps) ih
    · simp [likeMatch, hc, ih]

theorem likeMatch_single_pct (s : List Char) : likeMatch ['%'] s = true := by
  apply likeMatch_pct (List.nil_suffix)
  rfl

theorem sqlLike_empty_query (s : String) : sqlLike s "%%" = true := by
  unfold sqlLike
  have hp : lowerList "%%".toList = '%' :: '%' :: [] := rfl
  rw [hp]
  exact likeMatch_pct (List.suffix_refl _) (likeMatch_single_pct _)

theorem sqlLike_group_of_suffix {jid : String} (h : "@g.us".toList <:+ jid.toList) :
    sqlLike jid "%@g.us" = true := by
  unfold sqlLike
  have hp : lowerList "%@g.us".toList = '%' :: "@g.us".toList := by decide
  rw [hp]
  obtain ⟨pre, hpre⟩ := h
  have hlow : lowerList jid.toList = lowerList pre ++ "@g.us".toList := by
    have h5 : lowerList "@g.us".toList = "@g.us".toList := by decide
    rw [← hpre]
    unfold lowerList
    rw [List.map_append]
    exact congrArg _ h5
  rw [hlow]
  exact likeMatch_pct (List.suffix_append _ _) (likeMatch_self _)

/-! ### Helper lemmas about sorted windows -/

theorem sorted_insertionSort_window (r : α → α → Prop) [DecidableRel r]
    [IsTotal α r] [IsTrans α r] (l : List α) (m n : Nat) :
    List.Sorted r (((List.insertionSort r l).drop m).take n) :=
  List.Pairwise.sublist
    ((List.take_sublist _ _).trans (List.drop_sublist _ _))
    (List.sorted_insertionSort r l)

theorem mem_of_mem_window {r : α → α → Prop} [DecidableRel r]
    {l : List α} {m n : Nat} {x : α}
    (h : x ∈ ((List.insertionSort r l).drop m).take n) : x ∈ l := by
  have hsub : List.Sublist (((List.insertionSort r l).drop m).take n)
      (List.insertionSort r l) :=
    (List.take_sublist _ _).trans (List.drop_sublist _ _)
  exact (List.mem_insertionSort r).mp (hsub.mem h)

theorem window_length_le {α} (l : List α) (m n : Nat) : ((l.drop m).take n).length ≤ n :=
  List.length_take_le n _

theorem slice_concat {α} (l : List α) (m n : Nat) :
    (l.drop m).take n ++ (l.drop (m + n)).take n = (l.drop m).take (n + n) := by
  rw [List.take_add]
  congr 1
  rw [List.drop_drop]

theorem sorted_insertionSort_take (r : α → α → Prop) [DecidableRel r]
    [IsTotal α r] [IsTrans α r] (l : List α) (n : Nat) :
    List.Sorted r ((List.insertionSort r l).take n) :=
  List.Pairwise.sublist (List.take_sublist _ _) (List.sorted_insertionSort r l)

theorem mem_of_mem_take_sort {r : α → α → Prop} [DecidableRel r]
    {l : List α} {n : Nat} {x : α} (h : x ∈ (List.insertionSort r l).take n) : x ∈ l :=
  (List.mem_insertionSort r).mp ((List.take_sublist _ _).mem h)

/-- Structure of a successful `get_message_context`: the target is a
joined row carrying the requested id, and the windows are exactly the
`before_window`/`after_window` queries around it. -/
theorem get_message_context_ok {db : Db} {id0 : String} {b a : Nat} {ctx : MessageContext}
    (h : get_message_context db id0 b a = .ok ctx) :
    ctx.before = before_window db b ctx.message ∧
    ctx.after = after_window db a ctx.message ∧
    ctx.message ∈ joined_messages db ∧ ctx.message.id = id0 := by
  unfold get_message_context at h
  cases heq : (joined_messages db).filter (fun r => r.id == id0) with
  | nil => rw [heq] at h; cases h
  | cons t rest =>
    rw [heq] at h
    have hctx : ctx = ⟨t, before_window db b t, after_window db a t⟩ :=
      (Except.ok.inj h).symm
    subst hctx
    have hmem : t ∈ (joined_messages db).filter (fun r => r.id == id0) := by
      rw [heq]; exact List.mem_cons_self t rest
    have := List.mem_filter.mp hmem
    exact ⟨rfl, rfl, this.1, by simpa using this.2⟩

/-! ### Claim C1 -/

/-- C1, as stated, is false on the code: the "before" rows are fetched in
descending timestamp order and appended without reversing.  On `sampleDb`,
the context of `m3` with `before = 2` returns `[msg2v, msg1v]`, which is
not in ascending chronological order. -/
theorem c1_before_not_ascending :
    get_message_context sampleDb "m3" 2 0 = .ok ⟨msg3v, [msg2v, msg1v], []⟩ ∧
    ¬ List.Sorted msgTimeAsc [msg2v, msg1v] := by
  refine ⟨rfl, fun hs => ?_⟩
  have := List.rel_of_pairwise_cons hs (List.mem_cons_self msg1v [])
  exact absurd this (by decide)

/-- C1 (amended): for every resolvable identifier, the "before" window of
`get_message_context` is in DESCENDING timestamp order (the code fetches
descending and does not reverse), and the "after" window is in ascending
timestamp order. -/
theorem c1_window_order (db : Db) (id0 : String) (b a : Nat) (ctx : MessageContext)
    (h : get_message_context db id0 b a = .ok ctx) :
    List.Sorted msgTimeDesc ctx.before ∧ List.Sorted msgTimeAsc ctx.after := by
  obtain ⟨hb, ha, _, _⟩ := get_message_context_ok h
  constructor
  · rw [hb]; exact sorted_insertionSort_take msgTimeDesc _ b
  · rw [ha]; exact sorted_insertionSort_take msgTimeAsc _ a

/-- Witness for C1 (amended) at a concrete archive. -/
theorem c1_window_order_witness :
    List.Sorted msgTimeDesc (MessageContext.before ⟨msg3v, [msg2v, msg1v], []⟩) ∧
    List.Sorted msgTimeAsc (MessageContext.after ⟨msg3v, [msg2v, msg1v], []⟩) :=
  c1_window_order sampleDb "m3" 2 0 ⟨msg3v, [msg2v, msg1v], []⟩ rfl

/-! ### Claim C2 -/

/-- C2: every successful `get_message_context db id b a` returns at most
`b` before-entries and at most `a` after-entries; every window entry is in
the same conversation as the target and strictly earlier (before) or
strictly later (after) in timestamp; hence neither window contains the
target itself, nor any message whose timestamp equals the target's. -/
theorem c2_window_bounds (db : Db) (id0 : String) (b a : Nat) (ctx : MessageContext)
    (h : get_message_context db id0 b a = .ok ctx) :
    ctx.before.length ≤ b ∧ ctx.after.length ≤ a ∧
    (∀ m ∈ ctx.before,
      m.chat_jid = ctx.message.chat_jid ∧ m.timestamp < ctx.message.timestamp) ∧
    (∀ m ∈ ctx.after,
      m.chat_jid = ctx.message.chat_jid ∧ ctx.message.timestamp < m.timestamp) ∧
    ctx.message ∉ ctx.before ∧ ctx.message ∉ ctx.after ∧
    (∀ m ∈ ctx.before, m.timestamp ≠ ctx.message.timestamp) ∧
    (∀ m ∈ ctx.after, m.timestamp ≠ ctx.message.timestamp) := by
  obtain ⟨hb, ha, _, _⟩ := get_message_context_ok h
  have hbmem : ∀ m ∈ ctx.before,
      m.chat_jid = ctx.message.chat_jid ∧ m.timestamp < ctx.message.timestamp := by
    intro m hm
    rw [hb] at hm
    have hf := (List.mem_filter.mp (mem_of_mem_take_sort hm)).2
    simpa using hf
  have hamem : ∀ m ∈ ctx.after,
      m.chat_jid = ctx.message.chat_jid ∧ ctx.message.timestamp < m.timestamp := by
    intro m hm
    rw [ha] at hm
    have hf := (List.mem_filter.mp (mem_of_mem_take_sort hm)).2
    have := (by simpa using hf : ctx.message.chat_jid = m.chat_jid ∧
      ctx.message.timestamp < m.timestamp)
    exact ⟨this.1.symm, this.2⟩
  refine ⟨?_, ?_, hbmem, hamem, ?_, ?_, ?_, ?_⟩
  · rw [hb]; exact List.length_take_le b _
  · rw [ha]; exact List.length_take_le a _
  · intro hm; exact absurd (hbmem _ hm).2 (lt_irrefl _)
  · intro hm; exact absurd (hamem _ hm).2 (lt_irrefl _)
  · intro m hm; exact Nat.ne_of_lt (hbmem m hm).2
  · intro m hm; exact (Nat.ne_of_lt (hamem m hm).2).symm

/-- Witness for C2 at a concrete archive. -/
theorem c2_window_bounds_witness :
    (MessageContext.before ⟨msg2v, [msg1v], [msg3v]⟩).length ≤ 1 ∧
    (MessageContext.after ⟨msg2v, [msg1v], [msg3v]⟩).length ≤ 1 ∧
    (∀ m ∈ MessageContext.before ⟨msg2v, [msg1v], [msg3v]⟩,
      m.chat_jid = (MessageContext.message ⟨msg2v, [msg1v], [msg3v]⟩).chat_jid ∧
      m.timestamp < (MessageContext.message ⟨msg2v, [msg1v], [msg3v]⟩).timestamp) ∧
    (∀ m ∈ MessageContext.after ⟨msg2v, [msg1v], [msg3v]⟩,
      m.chat_jid = (MessageContext.message ⟨msg2v, [msg1v], [msg3v]⟩).chat_jid ∧
      (MessageContext.message ⟨msg2v, [msg1v], [msg3v]⟩).timestamp < m.timestamp) ∧
    (MessageContext.message ⟨msg2v, [msg1v], [msg3v]⟩) ∉
      (MessageContext.before ⟨msg2v, [msg1v], [msg3v]⟩) ∧
    (MessageContext.message ⟨msg2v, [msg1v], [msg3v]⟩) ∉
      (MessageContext.after ⟨msg2v, [msg1v], [msg3v]⟩) ∧
    (∀ m ∈ MessageContext.before ⟨msg2v, [msg1v], [msg3v]⟩,
      m.timestamp ≠ (MessageContext.message ⟨msg2v, [msg1v], [msg3v]⟩).timestamp) ∧
    (∀ m ∈ MessageContext.after ⟨msg2v, [msg1v], [msg3v]⟩,
      m.timestamp ≠ (MessageContext.message ⟨msg2v, [msg1v], [msg3v]⟩).timestamp) :=
  c2_window_bounds sampleDb "m2" 1 1 ⟨msg2v, [msg1v], [msg3v]⟩ rfl

/-! ### Claim C3 -/

/-- C3: in a well-formed archive (every message's conversation exists),
`get_message_context` fails (raises) exactly when no message carries the
requested identifier; when some message does, it returns a
`MessageContext` without raising. -/
theorem c3_error_iff_unresolved (db : Db) (id0 : String) (b a : Nat)
    (hwf : ∀ m ∈ db.messages, ∃ c ∈ db.chats, c.jid = m.chat_jid) :
    isOkE (get_message_context db id0 b a) = false ↔
      ∀ m ∈ db.messages, m.id ≠ id0 := by
  unfold get_message_context
  cases heq : (joined_messages db).filter (fun r => r.id == id0) with
  | nil =>
    simp only [isOkE]
    constructor
    · intro _ m hm hid
      obtain ⟨c, hc, hcj⟩ := hwf m hm
      have hmem : joinRow m c ∈ joined_messages db := by
        unfold joined_messages
        exact List.mem_flatMap.mpr
          ⟨m, hm, List.mem_map.mpr ⟨c, List.mem_filter.mpr ⟨hc, by simp [hcj]⟩, rfl⟩⟩
      have hfil : joinRow m c ∈ (joined_messages db).filter (fun r => r.id == id0) :=
        List.mem_filter.mpr ⟨hmem, by simp [joinRow, hid]⟩
      rw [heq] at hfil
      cases hfil
    · intro _; trivial
  | cons t rest =>
    simp only [isOkE]
    constructor
    · intro hfalse; cases hfalse
    · intro hall
      exfalso
      have hmem : t ∈ (joined_messages db).filter (fun r => r.id == id0) := by
        rw [heq]; exact List.mem_cons_self t rest
      obtain ⟨hj, hbeq⟩ := List.mem_filter.mp hmem
      obtain ⟨m, hm, hmap⟩ := List.mem_flatMap.mp hj
      obtain ⟨c, _, hjoin⟩ := List.mem_map.mp hmap
      have hid : m.id = id0 := by
        have : t.id = id0 := by simpa using hbeq
        rw [← hjoin] at this
        exact this
      exact hall m hm hid

/-- Witness for C3 at a concrete archive and an unresolvable identifier. -/
theorem c3_error_iff_unresolved_witness :
    isOkE (get_message_context sampleDb "nope" 1 1) = false ↔
      ∀ m ∈ sampleDb.messages, m.id ≠ "nope" :=
  c3_error_iff_unresolved sampleDb "nope" 1 1 (by decide)

/-! ### Claim C4 -/

/-- C4: with context expansion off, `list_messages` pages are windows of
size `limit` at offset `page * limit` into the descending-by-timestamp
ordering of the matching rows; page 0 is the prefix of the most recent
matches, consecutive pages concatenate to one contiguous slice (no
overlap, no gap), every page is sorted descending, and the ordered set
being paged is a permutation of the filtered join. -/
theorem c4_pagination (db : Db) (dr : Option (Nat × Nat)) (s cj q : Option String)
    (lim k cb ca : Nat) :
    list_messages db dr s cj q lim k false cb ca
      = .ok (((matching_sorted db dr s cj q).drop (k * lim)).take lim) ∧
    list_messages db dr s cj q lim 0 false cb ca
      = .ok ((matching_sorted db dr s cj q).take lim) ∧
    ((matching_sorted db dr s cj q).drop (k * lim)).take lim ++
        ((matching_sorted db dr s cj q).drop ((k + 1) * lim)).take lim
      = ((matching_sorted db dr s cj q).drop (k * lim)).take (lim + lim) ∧
    List.Sorted msgTimeDesc (((matching_sorted db dr s cj q).drop (k * lim)).take lim) ∧
    (matching_sorted db dr s cj q).Perm
      ((joined_messages db).filter (message_matches dr s cj q)) := by
  have hpage : ∀ j : Nat, list_messages db dr s cj q lim j false cb ca
      = .ok (((matching_sorted db dr s cj q).drop (j * lim)).take lim) := fun j => rfl
  refine ⟨hpage k, ?_, ?_, ?_, ?_⟩
  · rw [hpage 0, Nat.zero_mul, List.drop_zero]
  · rw [Nat.succ_mul]
    exact slice_concat _ _ _
  · exact sorted_insertionSort_window msgTimeDesc _ _ _
  · exact List.perm_insertionSort msgTimeDesc _

/-! ### Claim C5 helpers -/

theorem map_joinRow_filter_id (m : DbMessage) (cs : List DbChat) (i : String) :
    ((cs.map (joinRow m)).filter fun r => r.id == i)
      = if m.id == i then cs.map (joinRow m) else [] := by
  by_cases h : (m.id == i) = true
  · rw [if_pos h]
    apply List.filter_eq_self.mpr
    intro r hr
    obtain ⟨c, _, rfl⟩ := List.mem_map.mp hr
    exact h
  · rw [if_neg h]
    apply List.filter_eq_nil_iff.mpr
    intro r hr
    obtain ⟨c, _, rfl⟩ := List.mem_map.mp hr
    exact fun hh => h hh

theorem chats_filter_eq_single {cs : List DbChat} (h : (cs.map DbChat.jid).Nodup)
    {c₀ : DbChat} (hc : c₀ ∈ cs) {j : String} (hj : c₀.jid = j) :
    cs.filter (fun c => c.jid == j) = [c₀] := by
  induction cs with
  | nil => cases hc
  | cons c rest ih =>
    rw [List.map_cons, List.nodup_cons] at h
    rcases List.mem_cons.mp hc with rfl | hmem
    · rw [List.filter_cons_of_pos (by simp [hj])]
      have hrest : rest.filter (fun c => c.jid == j) = [] := by
        apply List.filter_eq_nil_iff.mpr
        intro x hx hpx
        have hxj : x.jid = j := by simpa using hpx
        exact h.1 (by rw [← hj] at hxj; exact hxj ▸ List.mem_map.mpr ⟨x, hx, rfl⟩)
      rw [hrest]
    · have hcne : (c.jid == j) = false := by
        have hmemj : j ∈ rest.map DbChat.jid := hj ▸ List.mem_map.mpr ⟨c₀, hmem, rfl⟩
        have : c.jid ≠ j := fun hcj => h.1 (hcj ▸ hmemj)
        simpa using this
      rw [List.filter_cons_of_neg (by simp [hcne])]
      exact ih h.2 hmem

theorem flatMap_filter_single (msgs : List DbMessage) (cs : List DbChat)
    (h1 : (msgs.map DbMessage.id).Nodup) (h2 : (cs.map DbChat.jid).Nodup)
    (m₀ : DbMessage) (hm₀ : m₀ ∈ msgs) (c₀ : DbChat) (hc₀ : c₀ ∈ cs)
    (hj : c₀.jid = m₀.chat_jid) :
    ((msgs.flatMap fun m => (cs.filter fun c => c.jid == m.chat_jid).map (joinRow m)).filter
      fun r => r.id == m₀.id) = [joinRow m₀ c₀] := by
  rw [List.filter_flatMap]
  induction msgs with
  | nil => cases hm₀
  | cons m rest ih =>
    rw [List.map_cons, List.nodup_cons] at h1
    rw [List.flatMap_cons]
    rcases List.mem_cons.mp hm₀ with rfl | hmem
    · have hhead : ((cs.filter fun c => c.jid == m₀.chat_jid).map (joinRow m₀)).filter
          (fun r => r.id == m₀.id) = [joinRow m₀ c₀] := by
        rw [map_joinRow_filter_id, if_pos (by simp), chats_filter_eq_single h2 hc₀ hj]
        rfl
      have hrest : rest.flatMap (fun m =>
          ((cs.filter fun c => c.jid == m.chat_jid).map (joinRow m)).filter
            fun r => r.id == m₀.id) = [] := by
        apply List.flatMap_eq_nil_iff.mpr
        intro m' hm'
        rw [map_joinRow_filter_id, if_neg]
        intro hbeq
        have : m'.id = m₀.id := by simpa using hbeq
        exact h1.1 (this ▸ List.mem_map.mpr ⟨m', hm', rfl⟩)
      rw [hhead, hrest, List.append_nil]
    · have hhead : ((cs.filter fun c => c.jid == m.chat_jid).map (joinRow m)).filter
          (fun r => r.id == m₀.id) = [] := by
        rw [map_joinRow_filter_id, if_neg]
        intro hbeq
        have : m.id = m₀.id := by simpa using hbeq
        exact h1.1 (this ▸ List.mem_map.mpr ⟨m₀, hmem, rfl⟩)
      rw [hhead, List.nil_append]
      exact ih h1.2 hmem

/-- With archive-wide unique message ids and unique chat jids, the lookup
of `get_message_context` resolves a joined row to exactly itself. -/
theorem get_message_context_resolves (db : Db)
    (h1 : (db.messages.map DbMessage.id).Nodup) (h2 : (db.chats.map DbChat.jid).Nodup)
    {t : Message} (ht : t ∈ joined_messages db) (cb ca : Nat) :
    get_message_context db t.id cb ca
      = .ok ⟨t, before_window db cb t, after_window db ca t⟩ := by
  obtain ⟨m₀, hm₀, hmap⟩ := List.mem_flatMap.mp ht
  obtain ⟨c₀, hc₀f, rfl⟩ := List.mem_map.mp hmap
  obtain ⟨hc₀, hbeq⟩ := List.mem_filter.mp hc₀f
  have hj : c₀.jid = m₀.chat_jid := by simpa using hbeq
  have hid : Message.id (joinRow m₀ c₀) = m₀.id := rfl
  rw [hid]
  unfold get_message_context
  have hfil : (joined_messages db).filter (fun r => r.id == m₀.id) = [joinRow m₀ c₀] :=
    flatMap_filter_single db.messages db.chats h1 h2 m₀ hm₀ c₀ hc₀ hj
  rw [show joined_messages db
      = db.messages.flatMap fun m =>
          (db.chats.filter fun c => c.jid == m.chat_jid).map (joinRow m) from rfl] at hfil
  unfold joined_messages
  rw [hfil]

theorem expand_all_eq_flatMap (db : Db) (cb ca : Nat) (l : List Message)
    (h : ∀ t ∈ l, get_message_context db t.id cb ca
        = .ok ⟨t, before_window db cb t, after_window db ca t⟩) :
    expand_all db cb ca l
      = .ok (l.flatMap fun t => before_window db cb t ++ t :: after_window db ca t) := by
  induction l with
  | nil => rfl
  | cons t ts ih =>
    unfold expand_all
    rw [h t (List.mem_cons_self t ts), ih (fun x hx => h x (List.mem_cons_of_mem t hx)),
      List.flatMap_cons]
    simp [List.append_assoc]

theorem list_messages_true_eq (db : Db) (dr : Option (Nat × Nat)) (s cj q : Option String)
    (lim pg cb ca : Nat)
    (hall : ∀ t ∈ ((matching_sorted db dr s cj q).drop (pg * lim)).take lim,
      get_message_context db t.id cb ca
        = .ok ⟨t, before_window db cb t, after_window db ca t⟩) :
    list_messages db dr s cj q lim pg true cb ca
      = .ok ((((matching_sorted db dr s cj q).drop (pg * lim)).take lim).flatMap
          fun t => before_window db cb t ++ t :: after_window db ca t) := by
  have hexp := expand_all_eq_flatMap db cb ca _ hall
  unfold list_messages
  simp only [Bool.true_and]
  by_cases hE : (((matching_sorted db dr s cj q).drop (pg * lim)).take lim).isEmpty
  · have hnil : ((matching_sorted db dr s cj q).drop (pg * lim)).take lim = [] :=
      List.isEmpty_iff.mp hE
    rw [hnil]
    simp
  · have hcond : (!(((matching_sorted db dr s cj q).drop (pg * lim)).take lim).isEmpty) = true := by
      simp [hE]
    rw [hcond]
    simpa using hexp

/-! ### Claim C5 -/

/-- C5: with context expansion requested, pagination is applied only to
select the targets — never more than `limit` of them — and the returned
sequence is exactly the concatenation, in descending-timestamp target
order, of `[before-window, target, after-window]` blocks, each obtained
from the Context Assembler (`get_message_context`) for that target.
Stated under archive-wide uniqueness of message ids (and of chat jids),
without which the by-id-only lookup may resolve a different message. -/
theorem c5_context_expansion (db : Db) (dr : Option (Nat × Nat)) (s cj q : Option String)
    (lim pg cb ca : Nat)
    (h1 : (db.messages.map DbMessage.id).Nodup)
    (h2 : (db.chats.map DbChat.jid).Nodup) :
    (((matching_sorted db dr s cj q).drop (pg * lim)).take lim).length ≤ lim ∧
    (∀ t ∈ ((matching_sorted db dr s cj q).drop (pg * lim)).take lim,
      get_message_context db t.id cb ca
        = .ok ⟨t, before_window db cb t, after_window db ca t⟩) ∧
    list_messages db dr s cj q lim pg true cb ca
      = .ok ((((matching_sorted db dr s cj q).drop (pg * lim)).take lim).flatMap
          fun t => before_window db cb t ++ t :: after_window db ca t) := by
  have hall : ∀ t ∈ ((matching_sorted db dr s cj q).drop (pg * lim)).take lim,
      get_message_context db t.id cb ca
        = .ok ⟨t, before_window db cb t, after_window db ca t⟩ := by
    intro t htm
    have hjm : t ∈ joined_messages db :=
      (List.mem_filter.mp (mem_of_mem_window htm)).1
    exact get_message_context_resolves db h1 h2 hjm cb ca
  exact ⟨List.length_take_le lim _, hall,
    list_messages_true_eq db dr s cj q lim pg cb ca hall⟩

/-- Witness for C5 at a concrete archive. -/
theorem c5_context_expansion_witness :
    list_messages sampleDb none none none none 2 0 true 1 1
      = .ok ((((matching_sorted sampleDb none none none none).drop (0 * 2)).take 2).flatMap
          fun t => before_window sampleDb 1 t ++ t :: after_window sampleDb 1 t) :=
  (c5_context_expansion sampleDb none none none none 2 0 1 1 (by decide) (by decide)).2.2

/-! ### Claim C6 -/

/-- C6: the listing operations never surface a store failure: whatever
store-level error occurs (archive cannot be opened, query rejected),
`list_messages`, `list_chats` and `search_contacts` each return the empty
sequence instead of propagating it. -/
theorem c6_listing_swallows_store_errors (e : DbError)
    (dr : Option (Nat × Nat)) (s cj q : Option String) (lim pg : Nat)
    (ic : Bool) (cb ca : Nat) (qc : Option String) (ilm : Bool) (sb : String)
    (qs : String) :
    list_messages_op (.error e) dr s cj q lim pg ic cb ca = .ok [] ∧
    list_chats_op (.error e) qc lim pg ilm sb = [] ∧
    search_contacts_op (.error e) qs = [] :=
  ⟨rfl, rfl, rfl⟩

/-! ### Claim C7 -/

/-- C7, as stated, is false on the code: `ORDER BY chats.name` uses
SQLite's default case-sensitive BINARY collation, so on conversations
named `Bob`, `alice` and `NULL` the result is `[NULL, "Bob", "alice"]` —
`"Bob"` (codepoint 66) precedes `"alice"` (codepoint 97), which is not
ascending case-insensitive name order. -/
theorem c7_name_sort_not_case_insensitive :
    (list_chats namesDb none 20 0 true "name").map Chat.name
      = [none, some "Bob", some "alice"] ∧
    ¬ List.Sorted specCaseInsensitiveNameLe [none, some "Bob", some "alice"] := by
  refine ⟨rfl, fun hs => ?_⟩
  have h2 := (List.pairwise_cons.mp hs).2
  have hrel := List.rel_of_pairwise_cons h2 (List.mem_cons_self _ _)
  exact absurd hrel (by decide)

/-- C7 (amended): `list_chats` with `sort_by="name"` returns conversations
in ascending name order under the case-sensitive BINARY collation, with
conversations whose name is absent placed first (SQLite sorts `NULL`
first ascending) — not in case-insensitive order. -/
theorem c7_name_sort_binary (db : Db) (q : Option String) (lim pg : Nat) :
    List.Sorted chatNameLe (list_chats db q lim pg true "name") := by
  unfold list_chats
  exact sorted_insertionSort_window chatNameLe _ _ _

/-! ### Claim C8 -/

/-- C8, as stated, is false on the code: the query is matched with SQL
`LIKE`, whose `_` and `%` are wildcards, not literal characters.  On an
archive with the single chat `12@s` named `zz`, the query `"_"` returns
the contact although `"_"` is not a case-insensitive substring of either
the name or the identifier. -/
theorem c8_like_wildcard_not_substring :
    search_contacts contactsDb "_" = [⟨"12", some "zz", "12@s"⟩] ∧
    specSubstringCI "_" "zz" = false ∧ specSubstringCI "_" "12@s" = false :=
  ⟨rfl, rfl, rfl⟩

/-- C8 (amended): `search_contacts` returns at most 50 contacts, never
one whose identifier ends with `@g.us`, in ascending `(name, identifier)`
order (BINARY collation, absent names first); each returned contact
matches the `%`-wrapped query under SQL `LIKE` semantics (`%`/`_` are
wildcards — equivalent to case-insensitive substring search only for
queries without wildcard characters) against name or identifier, and its
phone number is the prefix of the identifier before the first `@`. -/
theorem c8_search_contacts_props (db : Db) (q : String) :
    (search_contacts db q).length ≤ 50 ∧
    List.Sorted contactOrd ((search_contacts db q).map fun c => (c.jid, c.name)) ∧
    ∀ c ∈ search_contacts db q,
      ¬ ("@g.us".toList <:+ c.jid.toList) ∧
      ((∃ n, c.name = some n ∧ sqlLike n ("%" ++ q ++ "%") = true) ∨
        sqlLike c.jid ("%" ++ q ++ "%") = true) ∧
      c.phone_number.toList ++ c.jid.toList.dropWhile (fun ch => ch != '@') = c.jid.toList ∧
      (∀ ch ∈ c.phone_number.toList, ch ≠ '@') := by
  refine ⟨?_, ?_, ?_⟩
  · unfold search_contacts
    rw [List.length_map]
    exact List.length_take_le 50 _
  · unfold search_contacts
    rw [List.map_map]
    have hcomp : ((fun c : Contact => (c.jid, c.name)) ∘ mk_contact)
        = (id : String × Option String → String × Option String) := rfl
    rw [hcomp, List.map_id]
    exact List.Pairwise.sublist (List.take_sublist _ _)
      (List.sorted_insertionSort contactOrd _)
  · intro c hc
    unfold search_contacts at hc
    obtain ⟨p, hp, rfl⟩ := List.mem_map.mp hc
    have hkeys : p ∈ contact_keys db q :=
      (List.mem_insertionSort contactOrd).mp ((List.take_sublist _ _).mem hp)
    unfold contact_keys at hkeys
    obtain ⟨row, hrowf, hkey⟩ := List.mem_map.mp (List.mem_dedup.mp hkeys)
    obtain ⟨hrow, hmatch⟩ := List.mem_filter.mp hrowf
    unfold contact_matches at hmatch
    rw [Bool.and_eq_true, Bool.or_eq_true, Bool.not_eq_true'] at hmatch
    subst hkey
    refine ⟨?_, ?_, ?_, ?_⟩
    · intro hsuf
      have hsuf2 : "@g.us".toList <:+ row.jid.toList := hsuf
      exact absurd (sqlLike_group_of_suffix hsuf2) (by rw [hmatch.2]; decide)
    · rcases hmatch.1 with hn | hj
      · cases hrn : row.name with
        | none => rw [hrn] at hn; cases hn
        | some n =>
          rw [hrn] at hn
          exact Or.inl ⟨n, rfl, hn⟩
      · exact Or.inr hj
    · show List.takeWhile (fun ch => ch != '@') row.jid.toList ++
          List.dropWhile (fun ch => ch != '@') row.jid.toList = row.jid.toList
      exact List.takeWhile_append_dropWhile _ _
    · intro ch hch
      have hch2 : ch ∈ List.takeWhile (fun c0 => c0 != '@') row.jid.toList := hch
      have := List.mem_takeWhile_imp hch2
      simpa using this

/-! ### Claim C9 -/

/-- C9: `send_message` is a total function of the transport outcome
(never raises): an empty recipient fails with a fixed status without
consulting the transport at all; HTTP 200 with a JSON body yields the
parsed `success`/`message` fields (with their defaults); any non-200
status fails with the raw body text embedded (a suffix of the status
message); a transport-level failure fails carrying the error text. -/
theorem c9_send_message_outcomes (recipient message text e : String) (status : Nat)
    (j : JsonResp) (jopt : Option JsonResp) (http : HttpResult) :
    send_message "" message http = (false, "Recipient must be provided") ∧
    (recipient ≠ "" →
      send_message recipient message (.response 200 text (some j))
        = (j.success.getD false, j.message.getD "Unknown response")) ∧
    (recipient ≠ "" → status ≠ 200 →
      send_message recipient message (.response status text jopt)
        = (false, "Error: HTTP " ++ toString status ++ " - " ++ text) ∧
      text.toList <:+ ("Error: HTTP " ++ toString status ++ " - " ++ text).toList) ∧
    (recipient ≠ "" →
      send_message recipient message (.requestError e) = (false, "Request error: " ++ e)) := by
  refine ⟨rfl, ?_, ?_, ?_⟩
  · intro hr
    simp [send_message, hr]
  · intro hr hs
    constructor
    · simp [send_message, hr, hs]
    · show text.data <:+
        (("Error: HTTP " ++ toString status ++ " - ") ++ text).data
      rw [String.data_append]
      exact List.suffix_append _ _
  · intro hr
    simp [send_message, hr]

/-- Witness for C9: the spec's scenario, an HTTP 500 with body text. -/
theorem c9_send_message_outcomes_witness :
    send_message "15551234567" "hi" (.response 500 "boom" none)
      = (false, "Error: HTTP " ++ toString 500 ++ " - " ++ "boom") ∧
    "boom".toList <:+ ("Error: HTTP " ++ toString 500 ++ " - " ++ "boom").toList :=
  (c9_send_message_outcomes "15551234567" "hi" "boom" "conn" 500 ⟨some true, some "ok"⟩
    none (.requestError "conn")).2.2.1 (by decide) (by decide)

/-! ### Claim C10 -/

/-- C10, as stated, is false on the code: the group filter
`jid NOT LIKE '%@g.us'` is case-insensitive while `is_group` (the data
model's notion of a group) is the case-sensitive suffix test, so the chat
`7@G.US` — a non-group conversation — is omitted from the empty-query
result instead of being returned. -/
theorem c10_group_exclusion_case_mismatch :
    search_contacts upperGroupDb "" = [] ∧
    Chat.is_group ⟨"7@G.US", some "x", none, none, none, none⟩ = false ∧
    (⟨"7@G.US", some "x", none⟩ : DbChat) ∈ upperGroupDb.chats :=
  ⟨rfl, by decide, by decide⟩

/-- C10 (amended): with the empty query the search pattern degenerates to
`%%`, which matches every identifier, so `search_contacts` returns a
contact for every conversation that survives the (case-insensitive)
`NOT LIKE '%@g.us'` group filter — rather than returning nothing — up to
the 50-result cap (stated here for archives within the cap). -/
theorem c10_empty_query_returns_all (db : Db)
    (hcap : (contact_keys db "").length ≤ 50) :
    ∀ c ∈ db.chats, sqlLike c.jid "%@g.us" = false →
      mk_contact (c.jid, c.name) ∈ search_contacts db "" := by
  intro c hc hng
  have hmatch : contact_matches "" c = true := by
    unfold contact_matches
    rw [hng]
    have h0 : ("%" ++ "" ++ "%" : String) = "%%" := rfl
    rw [h0, sqlLike_empty_query c.jid]
    simp
  have hkey : (c.jid, c.name) ∈ contact_keys db "" := by
    unfold contact_keys
    exact List.mem_dedup.mpr (List.mem_map.mpr ⟨c, List.mem_filter.mpr ⟨hc, hmatch⟩, rfl⟩)
  have hsortmem : (c.jid, c.name) ∈ List.insertionSort contactOrd (contact_keys db "") :=
    (List.mem_insertionSort contactOrd).mpr hkey
  have hlen : (List.insertionSort contactOrd (contact_keys db "")).length ≤ 50 := by
    rw [(List.perm_insertionSort contactOrd (contact_keys db "")).length_eq]
    exact hcap
  unfold search_contacts
  rw [List.take_of_length_le hlen]
  exact List.mem_map.mpr ⟨(c.jid, c.name), hsortmem, rfl⟩

/-- Witness for C10 (amended) at a concrete archive. -/
theorem c10_empty_query_returns_all_witness :
    mk_contact ("12@s", some "zz") ∈ search_contacts contactsDb "" :=
  c10_empty_query_returns_all contactsDb (by decide) ⟨"12@s", some "zz", none⟩
    (by decide) (by decide)

/-- Witness for C8 (amended) at a concrete archive and query. -/
theorem c8_search_contacts_props_witness :
    (search_contacts contactsDb "z").length ≤ 50 ∧
    List.Sorted contactOrd ((search_contacts contactsDb "z").map fun c => (c.jid, c.name)) ∧
    ∀ c ∈ search_contacts contactsDb "z",
      ¬ ("@g.us".toList <:+ c.jid.toList) ∧
      ((∃ n, c.name = some n ∧ sqlLike n ("%" ++ "z" ++ "%") = true) ∨
        sqlLike c.jid ("%" ++ "z" ++ "%") = true) ∧
      c.phone_number.toList ++ c.jid.toList.dropWhile (fun ch => ch != '@') = c.jid.toList ∧
      (∀ ch ∈ c.phone_number.toList, ch ≠ '@') :=
  c8_search_contacts_props contactsDb "z"
